import Mathlib

/-!
Shallow embedding of `crates/uv-publish/src/lib.rs` (the `uv-publish` crate):
file discovery (`files_for_publishing`), source-distribution metadata
extraction (`source_dist_pkg_info`, `metadata`), the multipart form builder
(`form_metadata`), request construction (`build_request`) and HTTP response
interpretation (`handle_response`, `PublishSendError::extract_error_message`).

External collaborators (the `glob` crate, `serde_json`, the wheel metadata
reader, `reqwest`) are modelled as parameters or as abstract error tokens
(`Nat`); the logic of the crate itself is translated from the source.
-/

deriving instance DecidableEq for Except

namespace UvPublish

/-- Model of `url::Url` restricted to the well-formed http(s) registry URLs
the publish code deals with: scheme, user-info username, host(:port), path. -/
structure Url where
  scheme : String
  username : String
  hostport : String
  path : String
deriving DecidableEq

/-- Model of `Url::set_username` (always succeeds on URLs with a host). -/
def set_username (u : Url) (name : String) : Url :=
  ⟨u.scheme, name, u.hostport, u.path⟩

/-- Model of `distribution_filename::SourceDistExtension`. -/
inductive SourceDistExtension where
  | Zip
  | TarGz
  | TarBz2
  | TarXz
  | TarZst
  | Tar
deriving DecidableEq

/-- Model of `distribution_filename::SourceDistFilename`. -/
structure SourceDistFilename where
  name : String
  version : String
  extension : SourceDistExtension
deriving DecidableEq

/-- Model of `distribution_filename::WheelFilename` (the fields used here). -/
structure WheelFilename where
  name : String
  version : String
  python_tag : List String
deriving DecidableEq

/-- Model of `distribution_filename::DistFilename`. -/
inductive DistFilename where
  | SourceDistFilename : SourceDistFilename → DistFilename
  | WheelFilename : WheelFilename → DistFilename
deriving DecidableEq

/-- Model of `DistFilename::filetype`: `sdist` or `bdist_wheel`. -/
def DistFilename.filetype : DistFilename → String
  | .SourceDistFilename _ => "sdist"
  | .WheelFilename _ => "bdist_wheel"

/-- Model of a filesystem path as its list of components
(`std::path::Path::components`). -/
structure FsPath where
  components : List String
deriving DecidableEq

/-- Model of `Path::file_name` (the last component, if any). -/
def FsPath.fileName (p : FsPath) : Option String :=
  p.components.getLast?

/-- Display a component path the way `Path::to_string_lossy` renders it. -/
def pathDisplay (components : List String) : String :=
  String.intercalate "/" components

/-- Model of `PublishPrepareError`; io / metadata-service errors are opaque
`Nat` tokens. -/
inductive PublishPrepareError where
  | Io : Nat → PublishPrepareError
  | Metadata : Nat → PublishPrepareError
  | Metadata23 : Nat → PublishPrepareError
  | InvalidExtension : SourceDistFilename → PublishPrepareError
  | MissingPkgInfo : PublishPrepareError
  | MultiplePkgInfo : String → PublishPrepareError
  | Read : String → Nat → PublishPrepareError
deriving DecidableEq

/-- Model of `PublishSendError`; the reqwest body-read error is an opaque
`Nat` token. -/
inductive PublishSendError where
  | ReqwestMiddleware : Nat → PublishSendError
  | StatusNoBody : Nat → Nat → PublishSendError
  | Status : Nat → String → PublishSendError
  | PermissionDenied : Nat → String → PublishSendError
  | RedirectError : Url → PublishSendError
deriving DecidableEq

/-- Model of `PublishError`; pattern / glob errors are opaque `Nat` tokens. -/
inductive PublishError where
  | Pattern : String → Nat → PublishError
  | Glob : Nat → PublishError
  | NoFiles : PublishError
  | InvalidFilename : FsPath → PublishError
  | PublishPrepare : FsPath → PublishPrepareError → PublishError
  | PublishSend : FsPath → Url → PublishSendError → PublishError
deriving DecidableEq

/-- Model of an HTTP response as `handle_response` observes it: final URL,
status code, optional `Content-Type` header value (after `to_str`), and the
result of reading the body (`bytes()` then `from_utf8_lossy`); a failed body
read is an opaque `Nat` error token. -/
structure Response where
  url : Url
  status : Nat
  content_type : Option String
  body : Except Nat String
deriving DecidableEq

/-- Model of `StatusCode::is_success` (2xx). -/
def is_success (status : Nat) : Bool :=
  200 ≤ status && status < 300

/-- Helper for `containsSubstr`: does any suffix of the list start with
`pat`? -/
def listContainsAux (pat : List Char) : List Char → Bool
  | [] => pat.isPrefixOf []
  | c :: rest => pat.isPrefixOf (c :: rest) || listContainsAux pat rest

/-- Model of Rust `str::contains(&str)`: some suffix of `s` starts with
`pat`. -/
def containsSubstr (s pat : String) : Bool :=
  listContainsAux pat.data s.data

/-- Model of `PublishSendError::extract_error_message`. The `serde_json`
deserialisation into `struct ErrorBody { code: String }` is an external
service, modelled by the parameter `parse`: `parse body = some code` means
the body parses as a JSON object with a string `code` field. -/
def extract_error_message (parse : String → Option String)
    (body : String) (content_type : Option String) : String :=
  if content_type = some "application/json" then
    match parse body with
    | some code => code
    | none => body
  else
    body

/-- Model of `handle_response` (minus tracing, which does not affect the
result). `parse` is the JSON `code`-field extractor threaded to
`extract_error_message`. -/
def handle_response (parse : String → Option String)
    (registry : Url) (response : Response) : Except PublishSendError Bool :=
  if response.url ≠ registry then
    .error (.RedirectError response.url)
  else if is_success response.status then
    .ok true
  else
    match response.body with
    | .error err => .error (.StatusNoBody response.status err)
    | .ok upload_error =>
      if response.status = 403 then
        if containsSubstr upload_error "overwrite artifact" then
          .ok false
        else
          .error (.PermissionDenied response.status
            (extract_error_message parse upload_error response.content_type))
      else if response.status = 409 then
        .ok false
      else if response.status = 400 &&
          (containsSubstr upload_error "updating asset" ||
           containsSubstr upload_error "already been taken") then
        .ok false
      else
        .error (.Status response.status
          (extract_error_message parse upload_error response.content_type))

/-- Model of one tar archive entry: its path (as components) and the result
of `entry.read_to_end` (a failed read is an opaque `Nat` error token). -/
structure TarEntry where
  path : List String
  read : Except Nat (List Nat)
deriving DecidableEq

/-- Does a tar entry path match the `PKG-INFO` filter of
`source_dist_pkg_info`: exactly two components, the second equal to
`PKG-INFO`? -/
def pkgInfoMatch (path : List String) : Bool :=
  match path with
  | [_, second] => second == "PKG-INFO"
  | _ => false

/-- Model of the `try_filter_map`/`try_collect` loop of
`source_dist_pkg_info`: walk the entry stream in order (a failed stream item
is an io error), keep the matching entries' paths and bytes, fail at the
first read error. -/
def collect_pkg_infos :
    List (Except Nat TarEntry) →
    Except PublishPrepareError (List (List String × List Nat))
  | [] => .ok []
  | .error e :: _ => .error (.Io e)
  | .ok entry :: rest =>
    if pkgInfoMatch entry.path then
      match entry.read with
      | .error e => .error (.Read (pathDisplay entry.path) e)
      | .ok buffer =>
        match collect_pkg_infos rest with
        | .error e => .error e
        | .ok tail => .ok ((entry.path, buffer) :: tail)
    else
      collect_pkg_infos rest

/-- Model of `source_dist_pkg_info`, over the decoded tar entry stream of the
archive. -/
def source_dist_pkg_info (entries : List (Except Nat TarEntry)) :
    Except PublishPrepareError (List Nat) :=
  match collect_pkg_infos entries with
  | .error e => .error e
  | .ok pkg_infos =>
    match pkg_infos with
    | [] => .error .MissingPkgInfo
    | [single] => .ok single.2
    | _ => .error (.MultiplePkgInfo
        (String.intercalate ", " (pkg_infos.map (fun x => pathDisplay x.1))))

/-- Model of `pypi_types::Metadata23` (external crate), with exactly the
fields `form_metadata` consumes. -/
structure Metadata23 where
  metadata_version : String
  name : String
  version : String
  summary : Option String
  description : Option String
  description_content_type : Option String
  author : Option String
  author_email : Option String
  maintainer : Option String
  maintainer_email : Option String
  license : Option String
  keywords : Option String
  home_page : Option String
  download_url : Option String
  requires_python : Option String
  classifiers : List String
  platforms : List String
  requires_dist : List String
  provides_dist : List String
  obsoletes_dist : List String
  requires_external : List String
  project_urls : List String
deriving DecidableEq

/-- Model of `metadata`. The wheel metadata reader
(`read_metadata_async_seek`) and `Metadata23::parse` are external services,
modelled by `wheelMeta` (the bytes it would return, or its error) and
`parseMeta`; `archive` is the decoded tar entry stream the source
distribution decompresses to. -/
def metadata (parseMeta : List Nat → Except Nat Metadata23)
    (archive : List (Except Nat TarEntry))
    (wheelMeta : Except Nat (List Nat))
    (filename : DistFilename) : Except PublishPrepareError Metadata23 :=
  match filename with
  | .SourceDistFilename source_dist =>
    if source_dist.extension ≠ SourceDistExtension.TarGz then
      .error (.InvalidExtension source_dist)
    else
      match source_dist_pkg_info archive with
      | .error e => .error e
      | .ok contents =>
        match parseMeta contents with
        | .error e => .error (.Metadata23 e)
        | .ok m => .ok m
  | .WheelFilename _ =>
    match wheelMeta with
    | .error e => .error (.Metadata e)
    | .ok contents =>
      match parseMeta contents with
      | .error e => .error (.Metadata23 e)
      | .ok m => .ok m

/-- Model of the `add_option` closure of `form_metadata`: a present value
becomes one entry, an absent value none. -/
def optEntry (name : String) (value : Option String) : List (String × String) :=
  match value with
  | some s => [(name, s)]
  | none => []

/-- Model of the `add_vec` closure of `form_metadata`: one entry per value,
in order. -/
def vecEntries (name : String) (values : List String) : List (String × String) :=
  values.map (fun v => (name, v))

/-- Model of `form_metadata`'s pure core: the ordered form field list built
from the file hash (`hash_file` is external sha256 io, passed in as
`hash_hex`), the filename classification, and the parsed metadata. -/
def form_metadata (hash_hex : String) (filename : DistFilename)
    (m : Metadata23) : List (String × String) :=
  [(":action", "file_upload"),
   ("sha256_digest", hash_hex),
   ("protocol_version", "1"),
   ("metadata_version", m.metadata_version),
   ("name", m.name),
   ("version", m.version),
   ("filetype", filename.filetype)]
  ++ [("pyversion",
       match filename with
       | .WheelFilename wheel => String.intercalate "." wheel.python_tag
       | .SourceDistFilename _ => "source")]
  ++ optEntry "summary" m.summary
  ++ optEntry "description" m.description
  ++ optEntry "description_content_type" m.description_content_type
  ++ optEntry "author" m.author
  ++ optEntry "author_email" m.author_email
  ++ optEntry "maintainer" m.maintainer
  ++ optEntry "maintainer_email" m.maintainer_email
  ++ optEntry "license" m.license
  ++ optEntry "keywords" m.keywords
  ++ optEntry "home_page" m.home_page
  ++ optEntry "download_url" m.download_url
  ++ [("requires_python", m.requires_python.getD "")]
  ++ vecEntries "classifiers" m.classifiers
  ++ vecEntries "platform" m.platforms
  ++ vecEntries "requires_dist" m.requires_dist
  ++ vecEntries "provides_dist" m.provides_dist
  ++ vecEntries "obsoletes_dist" m.obsoletes_dist
  ++ vecEntries "requires_external" m.requires_external
  ++ vecEntries "project_urls" m.project_urls

/-- UTF-8 bytes of a string, as `Nat`s (model of Rust `String` bytes). -/
def utf8Bytes (s : String) : List Nat :=
  (s.data.map (fun ch => (String.utf8EncodeChar ch).map UInt8.toNat)).flatten

/-- The RFC 4648 standard base64 alphabet. -/
def base64Alphabet : List Char :=
  "ABCDEFGHIJKLMNOPQRSTUVWXYZabcdefghijklmnopqrstuvwxyz0123456789+/".data

/-- One base64 alphabet character. -/
def b64c (n : Nat) : Char :=
  base64Alphabet.getD n 'A'

/-- Standard base64 with padding (model of `BASE64_STANDARD.encode`). -/
def base64encode : List Nat → String
  | [] => ""
  | [a] =>
    String.mk [b64c (a / 4), b64c (a % 4 * 16)] ++ "=="
  | [a, b] =>
    String.mk [b64c (a / 4), b64c (a % 4 * 16 + b / 16), b64c (b % 16 * 4)]
      ++ "="
  | a :: b :: c :: rest =>
    String.mk [b64c (a / 4), b64c (a % 4 * 16 + b / 16),
               b64c (b % 16 * 4 + c / 64), b64c (c % 64)]
      ++ base64encode rest

/-- The credential-relevant outcome of `build_request`: the request URL and
the optional `Authorization` header value. -/
structure BuiltRequest where
  url : Url
  authorization : Option String
deriving DecidableEq

/-- Model of the authentication logic of `build_request`: username with no
password is embedded in the URL's user-info; username plus password become a
Basic authorization header on the unmodified URL; no username leaves both
untouched. -/
def build_request (registry : Url) (username password : Option String) :
    BuiltRequest :=
  let url :=
    match username with
    | some u =>
      if password = none then
        set_username registry u
      else
        registry
    | none => registry
  let authorization :=
    match username, password with
    | some u, some p =>
      some ("Basic " ++ base64encode (utf8Bytes (u ++ ":" ++ p)))
    | _, _ => none
  ⟨url, authorization⟩

/-- Model of the filesystem as `files_for_publishing` observes it: the
`glob` crate's expansion of a pattern (a syntactically invalid pattern or a
walk error is an opaque `Nat` token) and the `is_file` test. -/
structure Fs where
  glob : String → Except Nat (List (Except Nat FsPath))
  isFile : FsPath → Bool

/-- Model of the inner loop of `files_for_publishing` over one pattern's
glob results, carrying the `seen` dedup set and the accumulated files. The
filename grammar (`DistFilename::try_from_normalized_filename`, external
crate) is the parameter `parse`. -/
def files_go (parse : String → Option DistFilename) (isFile : FsPath → Bool) :
    List (Except Nat FsPath) → List FsPath → List (FsPath × DistFilename) →
    Except PublishError (List FsPath × List (FsPath × DistFilename))
  | [], seen, files => .ok (seen, files)
  | .error e :: _, _, _ => .error (.Glob e)
  | .ok dist :: rest, seen, files =>
    if isFile dist = false then
      files_go parse isFile rest seen files
    else if dist ∈ seen then
      files_go parse isFile rest seen files
    else
      match dist.fileName with
      | none => files_go parse isFile rest (dist :: seen) files
      | some fname =>
        match parse fname with
        | none => .error (.InvalidFilename dist)
        | some filename =>
          files_go parse isFile rest (dist :: seen) (files ++ [(dist, filename)])

/-- Model of the outer loop of `files_for_publishing` over the pattern
list. -/
def files_paths_go (fs : Fs) (parse : String → Option DistFilename) :
    List String → List FsPath → List (FsPath × DistFilename) →
    Except PublishError (List (FsPath × DistFilename))
  | [], _, files => .ok files
  | path :: rest, seen, files =>
    match fs.glob path with
    | .error e => .error (.Pattern path e)
    | .ok dists =>
      match files_go parse fs.isFile dists seen files with
      | .error e => .error e
      | .ok (seen2, files2) => files_paths_go fs parse rest seen2 files2

/-- Model of `files_for_publishing`. -/
def files_for_publishing (fs : Fs)
    (parse : String → Option DistFilename) (paths : List String) :
    Except PublishError (List (FsPath × DistFilename)) :=
  files_paths_go fs parse paths [] []

/-- Does a form field set contain an entry with the given field name? -/
def hasKey (l : List (String × String)) (k : String) : Bool :=
  l.any (fun e => e.1 == k)

/-- An archive entry stream in which the stream itself and every entry read
succeed: the shape of a well-formed gzip-compressed tar archive. -/
def okStream (es : List (List String × List Nat)) : List (Except Nat TarEntry) :=
  es.map (fun e => .ok ⟨e.1, .ok e.2⟩)

/-- On a well-formed archive, the collection loop returns exactly the
entries whose path matches the depth-two `PKG-INFO` filter, in order. -/
theorem collect_pkg_infos_ok_stream (es : List (List String × List Nat)) :
    collect_pkg_infos (okStream es) =
      .ok (es.filter (fun e => pkgInfoMatch e.1)) := by
  induction es with
  | nil => rfl
  | cons e rest ih =>
    by_cases h : pkgInfoMatch e.1 = true
    · simp [okStream, collect_pkg_infos, h, List.filter_cons] at ih ⊢
      simp [ih]
    · simp [okStream, collect_pkg_infos, h, List.filter_cons] at ih ⊢
      simp [ih]

/-- C5: extraction from a well-formed compressed-tar archive considers
exactly the entries of path depth two whose second component is `PKG-INFO`:
zero matches yield `MissingPkgInfo`, exactly one yields that entry's exact
bytes, and two or more yield `MultiplePkgInfo` naming all matched paths
comma-joined; deeper or shallower entries are ignored by the filter. -/
theorem c5_pkg_info_selection (es : List (List String × List Nat)) :
    (es.filter (fun e => pkgInfoMatch e.1) = [] →
      source_dist_pkg_info (okStream es) = .error .MissingPkgInfo) ∧
    (∀ p b, es.filter (fun e => pkgInfoMatch e.1) = [(p, b)] →
      source_dist_pkg_info (okStream es) = .ok b) ∧
    (2 ≤ (es.filter (fun e => pkgInfoMatch e.1)).length →
      source_dist_pkg_info (okStream es) =
        .error (.MultiplePkgInfo (String.intercalate ", "
          ((es.filter (fun e => pkgInfoMatch e.1)).map
            (fun x => pathDisplay x.1))))) := by
  have hc := collect_pkg_infos_ok_stream es
  refine ⟨fun h => ?_, fun p b h => ?_, fun h => ?_⟩
  · simp [source_dist_pkg_info, hc, h]
  · simp [source_dist_pkg_info, hc, h]
  · rcases hm : es.filter (fun e => pkgInfoMatch e.1) with _ | ⟨x, _ | ⟨y, rest⟩⟩
    · rw [hm] at h; simp at h
    · rw [hm] at h; simp at h
    · simp [source_dist_pkg_info, hc, hm]

/-- Witness for C5 at concrete archives: an archive whose only `PKG-INFO`
entries are at depth one or depth three yields `MissingPkgInfo`; an archive
with exactly one depth-two `PKG-INFO` yields its bytes; one with two yields
`MultiplePkgInfo` naming both paths. -/
theorem c5_pkg_info_selection_witness :
    source_dist_pkg_info (okStream
      [(["pkg-1.0", "setup.py"], []), (["PKG-INFO"], [1]),
       (["pkg-1.0", "src", "PKG-INFO"], [2])]) =
      .error .MissingPkgInfo ∧
    source_dist_pkg_info (okStream
      [(["pkg-1.0", "PKG-INFO"], [104, 105]), (["pkg-1.0", "README"], [3])]) =
      .ok [104, 105] ∧
    source_dist_pkg_info (okStream
      [(["a", "PKG-INFO"], [1]), (["b", "PKG-INFO"], [2])]) =
      .error (.MultiplePkgInfo "a/PKG-INFO, b/PKG-INFO") :=
  ⟨(c5_pkg_info_selection _).1 (by decide),
   (c5_pkg_info_selection _).2.1 ["pkg-1.0", "PKG-INFO"] [104, 105]
     (by decide),
   ((c5_pkg_info_selection _).2.2 (by decide)).trans (by decide)⟩

/-- C6: a source distribution whose extension is not `.tar.gz` fails with
`InvalidExtension` naming that filename, whatever the archive contents, the
wheel reader, or the metadata parser would have produced — the archive is
never consulted. -/
theorem c6_invalid_extension (parseMeta : List Nat → Except Nat Metadata23)
    (archive : List (Except Nat TarEntry)) (wheelMeta : Except Nat (List Nat))
    (sd : SourceDistFilename) (h : sd.extension ≠ SourceDistExtension.TarGz) :
    metadata parseMeta archive wheelMeta (.SourceDistFilename sd) =
      .error (.InvalidExtension sd) := by
  simp [metadata, h]

/-- Witness for C6 at a concrete input: a `.zip` source distribution is
rejected even when the archive stream itself is failing and the external
services error out. -/
theorem c6_invalid_extension_witness :
    (⟨"foo", "1.0", .Zip⟩ : SourceDistFilename).extension ≠
      SourceDistExtension.TarGz ∧
    metadata (fun _ => .error 0) [.error 9] (.error 0)
      (.SourceDistFilename ⟨"foo", "1.0", .Zip⟩) =
      .error (.InvalidExtension ⟨"foo", "1.0", .Zip⟩) :=
  ⟨by decide, c6_invalid_extension _ _ _ _ (by decide)⟩

/-- C1: a response whose final URL differs from the targeted registry URL
always yields `RedirectError` carrying the redirected URL, regardless of the
status code — in particular a 2xx response after a redirect is an error,
never a successful upload. -/
theorem c1_redirect_is_fatal (parse : String → Option String)
    (registry : Url) (r : Response) (h : r.url ≠ registry) :
    handle_response parse registry r = .error (.RedirectError r.url) := by
  simp [handle_response, h]

/-- Witness for C1 at a concrete input: a 200 response whose final URL is
the canonical index URL `/simple/` while the targeted registry URL was
`/simple` (no slash) is a `RedirectError`, not a success. -/
theorem c1_redirect_is_fatal_witness :
    (⟨"https", "", "test.pypi.org", "/simple/"⟩ : Url) ≠
      (⟨"https", "", "test.pypi.org", "/simple"⟩ : Url) ∧
    handle_response (fun _ => none)
      ⟨"https", "", "test.pypi.org", "/simple"⟩
      ⟨⟨"https", "", "test.pypi.org", "/simple/"⟩, 200, none, .ok ""⟩ =
      .error (.RedirectError ⟨"https", "", "test.pypi.org", "/simple/"⟩) :=
  ⟨by decide, c1_redirect_is_fatal _ _ _ (by decide)⟩

/-- C10: a non-redirected, non-2xx response whose body cannot be read yields
`StatusNoBody` with the status code and the read error, whatever the status
code — the body is read before any already-exists classification. -/
theorem c10_unreadable_body_is_status_no_body (parse : String → Option String)
    (registry : Url) (r : Response) (e : Nat)
    (h1 : r.url = registry) (h2 : is_success r.status = false)
    (h3 : r.body = .error e) :
    handle_response parse registry r = .error (.StatusNoBody r.status e) := by
  have hne : ¬(r.url ≠ registry) := by simp [h1]
  simp [handle_response, hne, h2, h3]

/-- Witness for C10 at a concrete input: a 409 response (normally the
pypiserver already-exists quirk) with an unreadable body is `StatusNoBody`,
not already-exists. -/
theorem c10_unreadable_body_is_status_no_body_witness :
    (⟨⟨"https", "", "example.org", "/upload"⟩, 409, none,
        (.error 7 : Except Nat String)⟩ : Response).url =
      (⟨"https", "", "example.org", "/upload"⟩ : Url) ∧
    is_success 409 = false ∧
    handle_response (fun _ => none) ⟨"https", "", "example.org", "/upload"⟩
      ⟨⟨"https", "", "example.org", "/upload"⟩, 409, none, .error 7⟩ =
      .error (.StatusNoBody 409 7) :=
  ⟨rfl, by decide,
    c10_unreadable_body_is_status_no_body _ _ _ 7 rfl (by decide) rfl⟩

/-- C2: for a non-redirected, non-2xx response with readable body, the
already-exists outcome (`Ok false`) holds exactly for status 409, status 403
with the overwrite-rejection phrase, or status 400 with the asset-update or
name-already-taken phrase; a 403 without that phrase is `PermissionDenied`,
and every other non-2xx status is a `Status(code, message)` failure. -/
theorem c2_already_exists_quirks (parse : String → Option String)
    (registry : Url) (r : Response) (b : String)
    (h1 : r.url = registry) (h2 : is_success r.status = false)
    (h3 : r.body = .ok b) :
    (handle_response parse registry r = .ok false ↔
      (r.status = 409 ∨
       (r.status = 403 ∧ containsSubstr b "overwrite artifact" = true) ∨
       (r.status = 400 ∧
        (containsSubstr b "updating asset" = true ∨
         containsSubstr b "already been taken" = true)))) ∧
    (r.status = 403 → containsSubstr b "overwrite artifact" = false →
      handle_response parse registry r =
        .error (.PermissionDenied r.status
          (extract_error_message parse b r.content_type))) ∧
    (r.status ≠ 403 → r.status ≠ 409 →
      ¬(r.status = 400 ∧
        (containsSubstr b "updating asset" = true ∨
         containsSubstr b "already been taken" = true)) →
      handle_response parse registry r =
        .error (.Status r.status
          (extract_error_message parse b r.content_type))) := by
  have hne : ¬(r.url ≠ registry) := by simp [h1]
  simp only [handle_response, if_neg hne, h2, h3, Bool.false_eq_true,
    if_false, Bool.and_eq_true, decide_eq_true_eq, Bool.or_eq_true]
  by_cases h403 : r.status = 403
  · by_cases hov : containsSubstr b "overwrite artifact" = true
    · simp [h403, hov]
    · simp [h403, hov]
  · by_cases h409 : r.status = 409
    · simp [h403, h409]
    · by_cases h400 : r.status = 400 ∧
        (containsSubstr b "updating asset" = true ∨
         containsSubstr b "already been taken" = true)
      · simp [h403, h409, h400]
      · simp [h403, h409, h400]

/-- Witness for C2 at concrete inputs: 409 with empty body is
already-exists; 403 with empty body is `PermissionDenied`; 500 with empty
body is `Status`. -/
theorem c2_already_exists_quirks_witness :
    handle_response (fun _ => none) ⟨"https", "", "example.org", "/u"⟩
      ⟨⟨"https", "", "example.org", "/u"⟩, 409, none, .ok ""⟩ = .ok false ∧
    handle_response (fun _ => none) ⟨"https", "", "example.org", "/u"⟩
      ⟨⟨"https", "", "example.org", "/u"⟩, 403, none, .ok ""⟩ =
      .error (.PermissionDenied 403 "") ∧
    handle_response (fun _ => none) ⟨"https", "", "example.org", "/u"⟩
      ⟨⟨"https", "", "example.org", "/u"⟩, 500, none, .ok ""⟩ =
      .error (.Status 500 "") :=
  ⟨(c2_already_exists_quirks _ _ _ "" rfl (by decide) rfl).1.mpr
      (Or.inl rfl),
   (c2_already_exists_quirks _ _ _ "" rfl (by decide) rfl).2.1 rfl
      (by decide),
   (c2_already_exists_quirks _ _ _ "" rfl (by decide) rfl).2.2
      (by decide) (by decide) (by decide)⟩

/-- C4: the extracted diagnostic message is the JSON `code` field exactly
when the content type is exactly `application/json` and the body parses as
an object with a string `code` field; on parse failure or any other content
type the raw body is returned verbatim. -/
theorem c4_extract_error_message_cases (parse : String → Option String)
    (body : String) (content_type : Option String) (code : String) :
    (content_type = some "application/json" → parse body = some code →
      extract_error_message parse body content_type = code) ∧
    (content_type = some "application/json" → parse body = none →
      extract_error_message parse body content_type = body) ∧
    (content_type ≠ some "application/json" →
      extract_error_message parse body content_type = body) := by
  refine ⟨fun h1 h2 => ?_, fun h1 h2 => ?_, fun h1 => ?_⟩
  · simp [extract_error_message, h1, h2]
  · simp [extract_error_message, h1, h2]
  · simp [extract_error_message, h1]

/-- Witness for C4 at the spec's concrete example: the JSON body with
`code` field `X` yields `X` under content type `application/json`, and the
raw body under `text/plain`. -/
theorem c4_extract_error_message_cases_witness :
    extract_error_message
      (fun s => if s = "\x7b\"code\":\"X\",\"message\":\"Y\"\x7d"
        then some "X" else none)
      "\x7b\"code\":\"X\",\"message\":\"Y\"\x7d"
      (some "application/json") = "X" ∧
    extract_error_message
      (fun s => if s = "\x7b\"code\":\"X\",\"message\":\"Y\"\x7d"
        then some "X" else none)
      "\x7b\"code\":\"X\",\"message\":\"Y\"\x7d"
      (some "text/plain") = "\x7b\"code\":\"X\",\"message\":\"Y\"\x7d" :=
  ⟨(c4_extract_error_message_cases _ _ _ "X").1 rfl (by simp),
   (c4_extract_error_message_cases _ _ _ "X").2.2 (by simp)⟩

/-- The empty field set has no keys. -/
theorem hasKey_nil (k : String) : hasKey [] k = false := rfl

/-- A field set headed by one entry has key `k` iff that entry is named `k`
or the tail has it. -/
theorem hasKey_cons (e : String × String) (l : List (String × String))
    (k : String) : hasKey (e :: l) k = ((e.1 == k) || hasKey l k) := by
  simp [hasKey]

/-- A field set has a key after concatenation iff one part has it. -/
theorem hasKey_append (l₁ l₂ : List (String × String)) (k : String) :
    hasKey (l₁ ++ l₂) k = (hasKey l₁ k || hasKey l₂ k) := by
  simp [hasKey, List.any_append]

/-- An optional-field chunk has key `k` iff the value is present and the
field is named `k`. -/
theorem hasKey_optEntry (n k : String) (v : Option String) :
    hasKey (optEntry n v) k = (v.isSome && (n == k)) := by
  cases v <;> simp [hasKey, optEntry]

/-- A repeated-field chunk has key `k` iff it is nonempty and named `k`. -/
theorem hasKey_vecEntries (n k : String) (vs : List String) :
    hasKey (vecEntries n vs) k = (!vs.isEmpty && (n == k)) := by
  cases vs with
  | nil => rfl
  | cons v rest =>
    cases h : (n == k) <;>
      simp [hasKey, vecEntries, List.any_map, Function.comp, h]
    exact fun a _ => by simpa using h

/-- C7: each optional scalar form field is present exactly when its
metadata value is present (an absent value yields no entry at all), while
`requires_python` is present in every built form, with the empty string when
the metadata has no requires-python. -/
theorem c7_optional_form_fields (hash_hex : String) (filename : DistFilename)
    (m : Metadata23) :
    hasKey (form_metadata hash_hex filename m) "summary" = m.summary.isSome ∧
    hasKey (form_metadata hash_hex filename m) "description" =
      m.description.isSome ∧
    hasKey (form_metadata hash_hex filename m) "description_content_type" =
      m.description_content_type.isSome ∧
    hasKey (form_metadata hash_hex filename m) "author" = m.author.isSome ∧
    hasKey (form_metadata hash_hex filename m) "author_email" =
      m.author_email.isSome ∧
    hasKey (form_metadata hash_hex filename m) "maintainer" =
      m.maintainer.isSome ∧
    hasKey (form_metadata hash_hex filename m) "maintainer_email" =
      m.maintainer_email.isSome ∧
    hasKey (form_metadata hash_hex filename m) "license" = m.license.isSome ∧
    hasKey (form_metadata hash_hex filename m) "keywords" =
      m.keywords.isSome ∧
    hasKey (form_metadata hash_hex filename m) "home_page" =
      m.home_page.isSome ∧
    hasKey (form_metadata hash_hex filename m) "download_url" =
      m.download_url.isSome ∧
    ("requires_python", m.requires_python.getD "") ∈
      form_metadata hash_hex filename m := by
  refine ⟨?_, ?_, ?_, ?_, ?_, ?_, ?_, ?_, ?_, ?_, ?_, ?_⟩ <;>
    simp [form_metadata, hasKey_cons, hasKey_append, hasKey_optEntry,
      hasKey_vecEntries, hasKey_nil]

/-- C8: a username with no password is embedded in the request URL's
user-info component with no Authorization header; a username with a password
leaves the URL unmodified and sets a Basic header with
base64-encoded `username:password`; no username leaves the URL unmodified
with no header. -/
theorem c8_request_credentials (registry : Url) (u p : String) :
    build_request registry (some u) none = ⟨set_username registry u, none⟩ ∧
    build_request registry (some u) (some p) =
      ⟨registry,
       some ("Basic " ++ base64encode (utf8Bytes (u ++ ":" ++ p)))⟩ ∧
    (∀ pw : Option String, build_request registry none pw = ⟨registry, none⟩) := by
  refine ⟨rfl, rfl, fun pw => ?_⟩
  cases pw <;> rfl

/-- The end-to-end credential vector from the repository's own snapshot
test: username `ferris`, password `F3RR!S` produce the Basic header
`Basic ZmVycmlzOkYzUlIhUw==` on the unmodified registry URL. -/
theorem build_request_ferris_vector :
    build_request ⟨"https", "", "example.org", "/upload"⟩
      (some "ferris") (some "F3RR!S") =
      ⟨⟨"https", "", "example.org", "/upload"⟩,
       some "Basic ZmVycmlzOkYzUlIhUw=="⟩ := by
  decide

/-- Processing a matched regular file that was not seen before and whose
name does not parse as a distribution filename stops discovery with
`InvalidFilename` carrying that path. -/
theorem files_go_invalid_filename (parse : String → Option DistFilename)
    (isF : FsPath → Bool) (rest : List (Except Nat FsPath))
    (seen : List FsPath) (files : List (FsPath × DistFilename))
    (p : FsPath) (s : String) (h1 : isF p = true) (h2 : p ∉ seen)
    (h3 : p.fileName = some s) (h4 : parse s = none) :
    files_go parse isF (.ok p :: rest) seen files =
      .error (.InvalidFilename p) := by
  simp [files_go, h1, h2, h3, h4]

/-- Glob results that are not regular files are skipped without changing
the discovery state. -/
theorem files_go_skip_non_files (parse : String → Option DistFilename)
    (isF : FsPath → Bool) (pre l : List (Except Nat FsPath))
    (seen : List FsPath) (files : List (FsPath × DistFilename))
    (h : ∀ r ∈ pre, ∃ q, r = Except.ok q ∧ isF q = false) :
    files_go parse isF (pre ++ l) seen files =
      files_go parse isF l seen files := by
  induction pre with
  | nil => rfl
  | cons r pre ih =>
    obtain ⟨q, rfl, hq⟩ := h r (List.mem_cons_self r pre)
    rw [List.cons_append]
    simp only [files_go, hq, if_true]
    exact ih (fun r hr => h r (List.mem_cons_of_mem _ hr))

/-- C9: a matched regular file whose name does not parse as a recognized
distribution filename fails discovery with `InvalidFilename` carrying its
path — both from any reachable state of the inner loop, and through
`files_for_publishing` when the file follows any run of non-file matches. -/
theorem c9_invalid_filename (fs : Fs) (parse : String → Option DistFilename)
    (pat : String) (pre rest : List (Except Nat FsPath)) (p : FsPath)
    (s : String) (hg : fs.glob pat = .ok (pre ++ .ok p :: rest))
    (hpre : ∀ r ∈ pre, ∃ q, r = Except.ok q ∧ fs.isFile q = false)
    (h1 : fs.isFile p = true) (h3 : p.fileName = some s)
    (h4 : parse s = none) :
    files_for_publishing fs parse [pat] = .error (.InvalidFilename p) := by
  have hgo : files_go parse fs.isFile (pre ++ .ok p :: rest) [] [] =
      .error (.InvalidFilename p) := by
    rw [files_go_skip_non_files parse fs.isFile pre _ _ _ hpre]
    exact files_go_invalid_filename parse fs.isFile rest [] [] p s h1
      (List.not_mem_nil p) h3 h4
  simp [files_for_publishing, files_paths_go, hg, hgo]

/-- Witness for C9 at a concrete input: a matched regular file `a.txt`
preceded by a non-file match makes discovery fail with `InvalidFilename`
under a grammar that recognizes nothing. -/
theorem c9_invalid_filename_witness :
    files_for_publishing
      ⟨fun _ => .ok [.ok ⟨["dist"]⟩, .ok ⟨["dist", "a.txt"]⟩],
       fun q => q == ⟨["dist", "a.txt"]⟩⟩
      (fun _ => none) ["dist/*"] =
      .error (.InvalidFilename ⟨["dist", "a.txt"]⟩) :=
  c9_invalid_filename _ _ "dist/*" [.ok ⟨["dist"]⟩] [] ⟨["dist", "a.txt"]⟩
    "a.txt" rfl (by intro r hr; simp at hr; exact ⟨⟨["dist"]⟩, hr, by decide⟩)
    (by decide) rfl rfl

/-- When every pattern expands without error to matches containing no
regular file, the discovery loop passes its accumulator through
unchanged. -/
theorem files_paths_go_no_matches (fs : Fs)
    (parse : String → Option DistFilename) (paths : List String)
    (seen : List FsPath) (files : List (FsPath × DistFilename))
    (h : ∀ pat ∈ paths, ∃ rs, fs.glob pat = .ok rs ∧
      ∀ r ∈ rs, ∃ q, r = Except.ok q ∧ fs.isFile q = false) :
    files_paths_go fs parse paths seen files = .ok files := by
  induction paths generalizing seen with
  | nil => rfl
  | cons pat rest ih =>
    obtain ⟨rs, hg, hskip⟩ := h pat (List.mem_cons_self pat rest)
    have hgo : files_go parse fs.isFile rs seen files = .ok (seen, files) := by
      have := files_go_skip_non_files parse fs.isFile rs [] seen files hskip
      simpa using this
    simp only [files_paths_go, hg, hgo]
    exact ih seen (fun q hq => h q (List.mem_cons_of_mem _ hq))

/-- Counterexample to C3 as stated: with a syntactically valid pattern whose
expansion yields zero files, `files_for_publishing` returns the empty list,
and does not fail with the `NoFiles` error. -/
theorem c3_counterexample_empty_ok :
    files_for_publishing ⟨fun _ => .ok [], fun _ => false⟩ (fun _ => none)
      ["dist/*"] = .ok [] ∧
    files_for_publishing ⟨fun _ => .ok [], fun _ => false⟩ (fun _ => none)
      ["dist/*"] ≠ .error PublishError.NoFiles := by
  exact ⟨rfl, by decide⟩

/-- C3 (amended): for every list of syntactically valid glob patterns whose
expansion yields zero regular files, `files_for_publishing` returns `Ok`
with the empty list — it never raises the declared `NoFiles` error
itself. -/
theorem c3_zero_matches_is_empty_list (fs : Fs)
    (parse : String → Option DistFilename) (paths : List String)
    (h : ∀ pat ∈ paths, ∃ rs, fs.glob pat = .ok rs ∧
      ∀ r ∈ rs, ∃ q, r = Except.ok q ∧ fs.isFile q = false) :
    files_for_publishing fs parse paths = .ok [] ∧
    files_for_publishing fs parse paths ≠ .error PublishError.NoFiles := by
  have hm := files_paths_go_no_matches fs parse paths [] [] h
  refine ⟨hm, ?_⟩
  rw [files_for_publishing, hm]
  exact fun hx => Except.noConfusion hx

/-- Witness for C3 (amended) at a concrete input: one valid pattern whose
expansion contains only a directory, hence zero files. -/
theorem c3_zero_matches_is_empty_list_witness :
    files_for_publishing ⟨fun _ => .ok [.ok ⟨["dist"]⟩], fun _ => false⟩
      (fun _ => none) ["dist/*"] = .ok [] ∧
    files_for_publishing ⟨fun _ => .ok [.ok ⟨["dist"]⟩], fun _ => false⟩
      (fun _ => none) ["dist/*"] ≠ .error PublishError.NoFiles :=
  c3_zero_matches_is_empty_list _ _ _
    (by
      intro pat hp
      exact ⟨[.ok ⟨["dist"]⟩], rfl, by
        intro r hr
        simp at hr
        exact ⟨⟨["dist"]⟩, hr, rfl⟩⟩)

end UvPublish
